import Mathlib

/-!
Verification of the `parse-json` library (`src/index.ts`): a wrapper around a
strict JSON parser that turns raw parser failures into rich diagnostics
(`JSONError`) carrying an enhanced message, an optional file name and an
optional code frame.

The TypeScript source is shallowly embedded below.  External collaborators
(`JSON.parse`, babel's `codeFrameColumns`, and the position-converter package
`@smushytaco/index-to-position`) are not part of `src/`; the first two are
taken as parameters (the code never inspects their output), and the position
converter is modelled from the specification.
-/

namespace ParseJson

/-- Line/column position record, the `LineColumnPosition` type imported by the
source from `@smushytaco/index-to-position`: 1-based line and column. -/
structure LineColumnPosition where
  line : Nat
  column : Nat
deriving DecidableEq, Repr

/-- Recursive worker for `indexToPosition`: walk the first `index` characters,
bumping the line counter (and resetting the column) at each line break. -/
def indexToPositionGo : List Char → Nat → Nat → Nat → LineColumnPosition
  | _, 0, line, column => ⟨line, column⟩
  | [], _ + 1, line, column => ⟨line, column⟩
  | c :: cs, n + 1, line, column =>
    if c = '\n' then indexToPositionGo cs n (line + 1) 1
    else indexToPositionGo cs n line (column + 1)

/-- Modelled from the spec: the Position Converter `toPosition(text, offset)`
(the external package `@smushytaco/index-to-position`, spec section 4.1, used
with `oneBased: true`): scan the text for line-terminator boundaries to find
which line contains `offset`, then count code points from that line's start up
to `offset`; both line and column are 1-based. -/
def indexToPosition (text : String) (index : Nat) : LineColumnPosition :=
  indexToPositionGo text.toList index 1 1

/-- Character class of the regex token `\d`: the ASCII digits. -/
def isAsciiDigit (c : Char) : Bool :=
  '0' ≤ c && c ≤ '9'

/-- Numeric value of a digit string, as JavaScript `Number` on an all-digit
string. -/
def digitsToNat (ds : List Char) : Nat :=
  ds.foldl (fun n c => 10 * n + (c.toNat - '0'.toNat)) 0

/-- Strip a literal character sequence from the front of a list, returning the
remainder when the literal is present. -/
def stripLit : List Char → List Char → Option (List Char)
  | [], s => some s
  | _ :: _, [] => none
  | p :: ps, c :: cs => if c = p then stripLit ps cs else none

/-- The literal head of the location regex of `getErrorLocation`. -/
def inJsonLit : List Char := "in JSON at position ".toList

/-- The literal opening the optional line/column group of the location regex. -/
def lineLit : List Char := " (line ".toList

/-- The literal between the line and column digit groups of the location
regex. -/
def columnLit : List Char := " column ".toList

/-- Attempt of the location regex
`in JSON at position (?<index>\d+)(?: \(line (?<line>\d+) column (?<column>\d+)\))?$`
at one start position: `s` is the suffix of the message starting there.  The
result carries the `index` capture and, when the optional group matched, the
`line` and `column` captures.  The `$` anchor forces the match to consume `s`
entirely. -/
def matchLocationAt (s : List Char) : Option (Nat × Option (Nat × Nat)) :=
  match stripLit inJsonLit s with
  | none => none
  | some r1 =>
    let (ds, r2) := List.span isAsciiDigit r1
    if ds.isEmpty then none
    else
      match r2 with
      | [] => some (digitsToNat ds, none)
      | _ =>
        match stripLit lineLit r2 with
        | none => none
        | some r3 =>
          let (ls, r4) := List.span isAsciiDigit r3
          if ls.isEmpty then none
          else
            match stripLit columnLit r4 with
            | none => none
            | some r5 =>
              let (cs, r6) := List.span isAsciiDigit r5
              if cs.isEmpty then none
              else if r6 = [')'] then
                some (digitsToNat ds, some (digitsToNat ls, digitsToNat cs))
              else none

/-- `RegExp.exec` for the location regex: try each start position from the left
and return the captures of the first position at which the pattern matches. -/
def findLocationMatch : List Char → Option (Nat × Option (Nat × Nat))
  | [] => none
  | c :: cs =>
    match matchLocationAt (c :: cs) with
    | some r => some r
    | none => findLocationMatch cs

/-- `getErrorLocation(string, message)` from the source: run the location regex
over the message; with no match return `undefined`; with an explicit line and
column return them directly; otherwise resolve the captured offset through the
position converter, treating an offset equal to the string length as the
end-of-input sentinel (resolve `length - 1` and report `column + 1`). -/
def getErrorLocation (string message : String) : Option LineColumnPosition :=
  match findLocationMatch message.toList with
  | none => none
  | some (_, some (l, c)) => some ⟨l, c⟩
  | some (idx, none) =>
    if idx = string.length then
      let p := indexToPosition string (string.length - 1)
      some ⟨p.line, p.column + 1⟩
    else
      some (indexToPosition string idx)

/-- The apostrophe character, the optional `quote` capture of the token
regex. -/
def quoteChar : Char := Char.ofNat 39

/-- The JavaScript regex metacharacter `.` (no `s` flag) refuses the four line
terminators. -/
def isLineTerm (c : Char) : Bool :=
  c == '\n' || c == '\r' || c == Char.ofNat 0x2028 || c == Char.ofNat 0x2029

/-- `character.codePointAt(0) ?? 0`: the first code point of a string, `0` for
the empty string. -/
def codePointAtZero (s : String) : Nat :=
  match s.toList with
  | [] => 0
  | c :: _ => c.toNat

/-- `getCodePoint(character)` from the source: render the first code point as
an escaped Unicode scalar, with the hexadecimal produced by JavaScript
`toString(16)` (lowercase, no padding). -/
def getCodePoint (character : String) : String :=
  "\\u\x7b" ++ String.mk (Nat.toDigits 16 (codePointAtZero character)) ++ "\x7d"

/-- The literal required by the lookbehind `(?<=^Unexpected token )` of the
token regex of `addCodePointToUnexpectedToken`. -/
def uTokenLit : List Char := "Unexpected token ".toList

/-- Attempt of the body `(?<quote>')?(.)\k<quote>` of the token regex on the
message suffix that follows `Unexpected token `.  First the quoted
alternative is tried (`quote` participates: an apostrophe, any
non-line-terminator character, a closing apostrophe); when it cannot complete,
the engine backtracks to leave `quote` unmatched, `(.)` then consumes a single
non-line-terminator character and the backreference matches the empty string.
Returns the `(.)` capture and the untouched remainder of the message. -/
def matchUnexpectedToken : List Char → Option (Char × List Char)
  | [] => none
  | q :: rest =>
    if q = quoteChar then
      match rest with
      | c :: q2 :: r =>
        if q2 = quoteChar && !isLineTerm c then some (c, r)
        else some (quoteChar, rest)
      | _ => some (quoteChar, rest)
    else if isLineTerm q then none
    else some (q, rest)

/-- The replacement template of `addCodePointToUnexpectedToken`: the token in
double quotes followed by its code point in parentheses. -/
def tokenRendering (token : Char) : List Char :=
  ("\"" ++ String.singleton token ++ "\"(" ++
    getCodePoint (String.singleton token) ++ ")").toList

/-- `addCodePointToUnexpectedToken(message)` from the source:
`message.replace(/(?<=^Unexpected token )(?<quote>')?(.)\k<quote>/, ...)`.
The lookbehind pins the single possible match right after the leading literal
`Unexpected token `; on a match the matched slice (the token with its
surrounding quotes when present) is replaced by `tokenRendering`; otherwise
the message is returned unchanged. -/
def addCodePointToUnexpectedToken (message : String) : String :=
  match stripLit uTokenLit message.toList with
  | none => message
  | some s =>
    match matchUnexpectedToken s with
    | none => message
    | some (token, r) => String.mk (uTokenLit ++ tokenRendering token ++ r)

/-- The diagnostic error value of the source class `JSONError`: the private
base message behind the `message` accessor, the mutable `fileName`, and the
read-only code frames. -/
structure JSONError where
  name : String := "JSONError"
  baseMessage : String
  fileName : Option String := none
  codeFrame : Option String := none
  rawCodeFrame : Option String := none
deriving DecidableEq, Repr

/-- `generateCodeFrame(string, location, highlightCode)` from the source: a
direct call into babel's `codeFrameColumns`, taken here as the parameter
`render` (the source never inspects its output). -/
def generateCodeFrame (render : String → LineColumnPosition → Bool → String)
    (string : String) (location : LineColumnPosition)
    (highlightCode : Bool) : String :=
  render string location highlightCode

/-- The `JSONError` constructor: store the base message and, when the JSON
string is truthy (present and non-empty) and a location is available, render
the highlighted and the raw code frame. -/
def JSONError.make (render : String → LineColumnPosition → Bool → String)
    (message : String) (jsonString : Option String)
    (location : Option LineColumnPosition) : JSONError :=
  match jsonString, location with
  | some s, some loc =>
    if s = "" then { baseMessage := message }
    else
      { baseMessage := message
        codeFrame := some (generateCodeFrame render s loc true)
        rawCodeFrame := some (generateCodeFrame render s loc false) }
  | _, _ => { baseMessage := message }

/-- The `message` getter of `JSONError`: recompose the visible message from the
current state on every read — base message, then ` in <fileName>` when the
file name is truthy, then the highlighted code frame block when the frame is
truthy. -/
def JSONError.message (e : JSONError) : String :=
  let locationInfo :=
    match e.fileName with
    | some f => if f = "" then "" else " in " ++ f
    | none => ""
  let frameInfo :=
    match e.codeFrame with
    | some cf => if cf = "" then "" else "\n\n" ++ cf ++ "\n"
    | none => ""
  e.baseMessage ++ locationInfo ++ frameInfo

/-- The `message` setter of `JSONError`: overwrite the private base message. -/
def JSONError.setMessage (e : JSONError) (m : String) : JSONError :=
  { e with baseMessage := m }

/-- The `jsonError.fileName = fileName` assignment of `parseJson`. -/
def JSONError.setFileName (e : JSONError) (f : Option String) : JSONError :=
  { e with fileName := f }

/-- Outcome of the external call `JSON.parse(string, reviver)`: a parsed value,
a raised failure that is an `Error` instance (only its `message` string is
consulted), or a raised value that is not an `Error` instance. -/
inductive ParseOutcome (V E : Type) where
  | success (value : V)
  | errorWithMessage (message : String)
  | foreignFailure (error : E)

/-- Observable result of one `parseJson` invocation: a returned value, a thrown
`JSONError`, or a foreign failure rethrown verbatim. -/
inductive ParseResult (V E : Type) where
  | ok (value : V)
  | failed (error : JSONError)
  | rethrown (error : E)
deriving DecidableEq

/-- `parseJson(string, reviver, fileName)` from the source.  `jsonParse` is the
external parser `JSON.parse`, invoked once with exactly the given string and
reviver.  On success its value is returned as is.  A non-`Error` failure is
rethrown unchanged.  On an `Error` failure: with non-empty input the location
is extracted from the raw message and the message is token-enhanced, with
empty input the location step is skipped and the empty-string clause appended;
a `JSONError` is constructed from the message, the input string and the
optional location, the file name is attached, and it is thrown. -/
def parseJson {V E R : Type}
    (render : String → LineColumnPosition → Bool → String)
    (jsonParse : String → Option R → ParseOutcome V E)
    (string : String) (reviver : Option R) (fileName : Option String) :
    ParseResult V E :=
  match jsonParse string reviver with
  | .success v => .ok v
  | .foreignFailure e => .rethrown e
  | .errorWithMessage rawMessage =>
    if string = "" then
      .failed (JSONError.setFileName
        (JSONError.make render (rawMessage ++ " while parsing empty string")
          (some string) none) fileName)
    else
      .failed (JSONError.setFileName
        (JSONError.make render (addCodePointToUnexpectedToken rawMessage)
          (some string) (getErrorLocation string rawMessage)) fileName)

/-! ## Helper lemmas -/

/-- Stripping a literal from a list that begins with it succeeds and returns
the remainder. -/
theorem stripLit_self_append (p s : List Char) : stripLit p (p ++ s) = some s := by
  induction p with
  | nil => rfl
  | cons a l ih => simp [stripLit, ih]

/-- A successful strip decomposes the list: the literal is its head and the
returned remainder its tail. -/
theorem stripLit_some_decomp (p : List Char) :
    ∀ l r, stripLit p l = some r → l = p ++ r := by
  induction p with
  | nil =>
    intro l r h
    simpa [stripLit] using h
  | cons a ps ih =>
    intro l r h
    cases l with
    | nil => simp [stripLit] at h
    | cons c cs =>
      simp only [stripLit] at h
      by_cases hc : c = a
      · rw [if_pos hc] at h
        rw [hc, ih cs r h]
        rfl
      · rw [if_neg hc] at h
        exact absurd h (by simp)

/-! ## Claim theorems -/

/-- C3: whenever the raw error message carries both an explicit line and an
explicit column (the captures of the optional group of the location regex),
`getErrorLocation` returns exactly that embedded pair, for every source text —
in particular the result is independent of the text, so no position is
recomputed from the offset via the position converter. -/
theorem getErrorLocation_trusts_embedded_line_column
    (string message : String) (n l c : Nat)
    (h : findLocationMatch message.toList = some (n, some (l, c))) :
    getErrorLocation string message = some ⟨l, c⟩ := by
  unfold getErrorLocation
  rw [h]

/-- Witness for C3 at a concrete message carrying `line 1 column 6`. -/
theorem getErrorLocation_trusts_embedded_line_column_witness :
    getErrorLocation "xy"
      "Expected property name in JSON at position 5 (line 1 column 6)" =
      some ⟨1, 6⟩ :=
  getErrorLocation_trusts_embedded_line_column "xy"
    "Expected property name in JSON at position 5 (line 1 column 6)"
    5 1 6 (by decide)

/-- C2: when the raw error message carries an offset capture but no explicit
line/column, `getErrorLocation` of a non-empty text resolves the offset
through the position converter: an offset equal to the text length is the
end-of-input sentinel — the converter is consulted at `length - 1` and the
resulting column incremented by one — while a smaller offset is resolved
directly. -/
theorem getErrorLocation_offset_dispatch
    (string message : String) (n : Nat) (hs : string ≠ "")
    (h : findLocationMatch message.toList = some (n, none)) :
    (n = string.length →
      getErrorLocation string message =
        some ⟨(indexToPosition string (string.length - 1)).line,
              (indexToPosition string (string.length - 1)).column + 1⟩)
    ∧ (n < string.length →
      getErrorLocation string message = some (indexToPosition string n)) := by
  constructor
  · intro heq
    unfold getErrorLocation
    rw [h]
    simp [heq]
  · intro hlt
    unfold getErrorLocation
    rw [h]
    simp [Nat.ne_of_lt hlt]

/-- Witness for C2: both branches at concrete inputs — offset `3` equal to the
length of `"[1,"` yields the one-past-the-end column, and offset `1` inside
`"[1,"` is resolved directly. -/
theorem getErrorLocation_offset_dispatch_witness :
    ("[1," ≠ "" ∧
      getErrorLocation "[1," "Unexpected end of JSON input in JSON at position 3" =
        some ⟨1, 4⟩)
    ∧ getErrorLocation "[1," "Unexpected token 1 in JSON at position 1" =
        some ⟨1, 2⟩ := by
  refine ⟨⟨by decide, ?_⟩, ?_⟩
  · have h := (getErrorLocation_offset_dispatch "[1,"
      "Unexpected end of JSON input in JSON at position 3" 3 (by decide)
      (by decide)).1 rfl
    simpa using h
  · have h := (getErrorLocation_offset_dispatch "[1,"
      "Unexpected token 1 in JSON at position 1" 1 (by decide)
      (by decide)).2 (by decide)
    simpa using h

/-- C5: when the raw error message matches neither shape of the location regex,
`getErrorLocation` returns no location, and `parseJson` on a non-empty text
still throws a `JSONError` whose base message is set (to the token-enhanced
raw message) but which carries no `codeFrame` and no `rawCodeFrame`. -/
theorem getErrorLocation_no_match_degrades {V E R : Type}
    (string message : String) (hs : string ≠ "")
    (h : findLocationMatch message.toList = none)
    (render : String → LineColumnPosition → Bool → String)
    (jsonParse : String → Option R → ParseOutcome V E)
    (reviver : Option R) (fileName : Option String)
    (hp : jsonParse string reviver = .errorWithMessage message) :
    getErrorLocation string message = none
    ∧ parseJson render jsonParse string reviver fileName =
        .failed { baseMessage := addCodePointToUnexpectedToken message
                  fileName := fileName } := by
  have hloc : getErrorLocation string message = none := by
    unfold getErrorLocation
    rw [h]
  refine ⟨hloc, ?_⟩
  unfold parseJson
  rw [hp]
  simp [hs, hloc, JSONError.make, JSONError.setFileName]

/-- Witness for C5 at the message `"Oops"`, which contains no location
pattern. -/
theorem getErrorLocation_no_match_degrades_witness :
    getErrorLocation "a" "Oops" = none
    ∧ parseJson (fun _ _ _ => "")
        (fun _ _ => ParseOutcome.errorWithMessage "Oops" :
          String → Option Unit → ParseOutcome Nat Nat) "a" none none =
        .failed { baseMessage := addCodePointToUnexpectedToken "Oops"
                  fileName := none } :=
  getErrorLocation_no_match_degrades "a" "Oops" (by decide) (by decide)
    (fun _ _ _ => "") (fun _ _ => ParseOutcome.errorWithMessage "Oops")
    none none rfl

/-- C1: when the external parser call raises a failure that is not of the
recognized error kind (not an `Error` instance), `parseJson` rethrows that
failure verbatim: the result is exactly the original failure value, never a
`JSONError` wrapper and never decorated with a code frame. -/
theorem parseJson_rethrows_foreign_failure {V E R : Type}
    (render : String → LineColumnPosition → Bool → String)
    (jsonParse : String → Option R → ParseOutcome V E)
    (string : String) (reviver : Option R) (fileName : Option String) (e : E)
    (h : jsonParse string reviver = .foreignFailure e) :
    parseJson render jsonParse string reviver fileName = .rethrown e := by
  unfold parseJson
  rw [h]

/-- Witness for C1 with a parser that throws the foreign value `5`. -/
theorem parseJson_rethrows_foreign_failure_witness :
    parseJson (fun _ _ _ => "")
      (fun _ _ => ParseOutcome.foreignFailure 5 :
        String → Option Unit → ParseOutcome Nat Nat) "[1," none none =
      .rethrown 5 :=
  parseJson_rethrows_foreign_failure (fun _ _ _ => "")
    (fun _ _ => ParseOutcome.foreignFailure 5) "[1," none none 5 rfl

/-- C8: when the external parser call succeeds, `parseJson` returns exactly the
parser's value and constructs no `JSONError`.  The embedding calls the
external parser once with precisely the given text and reviver, so the
transform sees the identical argument sequence. -/
theorem parseJson_returns_parser_value {V E R : Type}
    (render : String → LineColumnPosition → Bool → String)
    (jsonParse : String → Option R → ParseOutcome V E)
    (string : String) (reviver : Option R) (fileName : Option String) (v : V)
    (h : jsonParse string reviver = .success v) :
    parseJson render jsonParse string reviver fileName = .ok v := by
  unfold parseJson
  rw [h]

/-- Witness for C8 with a parser that returns `7`. -/
theorem parseJson_returns_parser_value_witness :
    parseJson (fun _ _ _ => "")
      (fun _ _ => ParseOutcome.success 7 :
        String → Option Unit → ParseOutcome Nat Nat) "7" none none =
      .ok 7 :=
  parseJson_returns_parser_value (fun _ _ _ => "")
    (fun _ _ => ParseOutcome.success 7) "7" none none 7 rfl

/-- C7: when parsing the empty text fails with a recognized error, `parseJson`
appends ` while parsing empty string` to the raw message and throws a
`JSONError` with no code frames; the resulting diagnostic is the same for
every raw message shape, so no location lookup takes place. -/
theorem parseJson_empty_input {V E R : Type}
    (render : String → LineColumnPosition → Bool → String)
    (jsonParse : String → Option R → ParseOutcome V E)
    (reviver : Option R) (fileName : Option String) (msg : String)
    (h : jsonParse "" reviver = .errorWithMessage msg) :
    parseJson render jsonParse "" reviver fileName =
      .failed { baseMessage := msg ++ " while parsing empty string"
                fileName := fileName } := by
  unfold parseJson
  rw [h]
  simp [JSONError.make, JSONError.setFileName]

/-- Witness for C7 with the raw message `Unexpected end of JSON input`. -/
theorem parseJson_empty_input_witness :
    parseJson (fun _ _ _ => "")
      (fun _ _ => ParseOutcome.errorWithMessage "Unexpected end of JSON input" :
        String → Option Unit → ParseOutcome Nat Nat) "" none none =
      .failed { baseMessage :=
                  "Unexpected end of JSON input while parsing empty string"
                fileName := none } := by
  have h := parseJson_empty_input (fun _ _ _ => "")
    (fun _ _ => ParseOutcome.errorWithMessage "Unexpected end of JSON input" :
      String → Option Unit → ParseOutcome Nat Nat) none none
    "Unexpected end of JSON input" rfl
  simpa using h

/-- C4 (counterexample): the claim reads `message` as base message plus
` in <fileName>` whenever `fileName` is set; but the getter tests truthiness,
so setting `fileName` to the empty string leaves the read message equal to the
bare base message rather than the claimed composition. -/
theorem jsonError_message_fileName_empty_cex :
    (JSONError.setFileName (JSONError.make (fun _ _ _ => "") "m" none none)
      (some "")).message = "m"
    ∧ ("m" : String) ≠ "m" ++ " in " ++ "" := by
  exact ⟨rfl, by decide⟩

/-- C4 (amended): every read of `message` recomposes, from the current state,
the base message, then ` in <fileName>` when the file name is set to a
non-empty string, then the highlighted code frame block when a (non-empty)
code frame is present; nothing is cached, so setting a non-empty file name
after construction changes every subsequent read. -/
theorem jsonError_message_recomputes (e : JSONError) (f : String)
    (hf : f ≠ "") (hcf : e.codeFrame ≠ some "") :
    (e.message = e.baseMessage
        ++ (match e.fileName with
            | some g => if g = "" then "" else " in " ++ g
            | none => "")
        ++ (match e.codeFrame with
            | some cf => "\n\n" ++ cf ++ "\n"
            | none => ""))
    ∧ ((JSONError.setFileName e (some f)).message = e.baseMessage
        ++ (" in " ++ f)
        ++ (match e.codeFrame with
            | some cf => "\n\n" ++ cf ++ "\n"
            | none => ""))
    ∧ (JSONError.setFileName e (some f)).codeFrame = e.codeFrame := by
  obtain ⟨nm, b, fn, cf, rcf⟩ := e
  refine ⟨?_, ?_, rfl⟩
  · cases cf with
    | none =>
      cases fn with
      | none => simp [JSONError.message]
      | some g => simp [JSONError.message]
    | some cfv =>
      have hne : cfv ≠ "" := by
        intro hh
        exact hcf (by simp [hh])
      cases fn with
      | none => simp [JSONError.message, hne]
      | some g => simp [JSONError.message, hne]
  · cases cf with
    | none => simp [JSONError.message, JSONError.setFileName, hf]
    | some cfv =>
      have hne : cfv ≠ "" := by
        intro hh
        exact hcf (by simp [hh])
      simp [JSONError.message, JSONError.setFileName, hf, hne]

/-- Witness for the amended C4 at a diagnostic with a code frame and a file
name attached after construction. -/
theorem jsonError_message_recomputes_witness :
    (JSONError.setFileName
      (JSONError.make (fun _ _ _ => "FRAME") "msg" (some "[1,]")
        (some ⟨1, 4⟩)) (some "f.json")).message =
      "msg" ++ (" in " ++ "f.json") ++ ("\n\n" ++ "FRAME" ++ "\n") := by
  have h := (jsonError_message_recomputes
    (JSONError.make (fun _ _ _ => "FRAME") "msg" (some "[1,]") (some ⟨1, 4⟩))
    "f.json" (by decide) (by decide)).2.1
  simpa using h

/-- C9: for every constructed `JSONError`, `codeFrame` is present exactly when
`rawCodeFrame` is, and both are present exactly when the constructor received
a non-empty JSON string together with a location; the only post-construction
mutations in the source (the `fileName` assignment and the `message` setter)
leave both frames unchanged. -/
theorem jsonError_frames_invariant
    (render : String → LineColumnPosition → Bool → String) (msg : String)
    (js : Option String) (loc : Option LineColumnPosition) :
    ((JSONError.make render msg js loc).codeFrame.isSome ↔
      (JSONError.make render msg js loc).rawCodeFrame.isSome)
    ∧ ((JSONError.make render msg js loc).codeFrame.isSome ↔
        ((∃ s, js = some s ∧ s ≠ "") ∧ loc.isSome))
    ∧ (∀ (e : JSONError) (fn : Option String) (m : String),
        (JSONError.setFileName e fn).codeFrame = e.codeFrame
        ∧ (JSONError.setFileName e fn).rawCodeFrame = e.rawCodeFrame
        ∧ (JSONError.setMessage e m).codeFrame = e.codeFrame
        ∧ (JSONError.setMessage e m).rawCodeFrame = e.rawCodeFrame) := by
  refine ⟨?_, ?_, ?_⟩
  · cases js with
    | none => simp [JSONError.make]
    | some s =>
      cases loc with
      | none => simp [JSONError.make]
      | some l =>
        by_cases hs : s = "" <;> simp [JSONError.make, hs]
  · cases js with
    | none => simp [JSONError.make]
    | some s =>
      cases loc with
      | none => simp [JSONError.make]
      | some l =>
        by_cases hs : s = "" <;> simp [JSONError.make, hs]
  · intro e fn m
    exact ⟨rfl, rfl, rfl, rfl⟩

/-- C6: a message of the shape `Unexpected token <X>` — the leading literal
followed by a single character, unquoted or wrapped in single quotes, and an
arbitrary tail — is rewritten so that the token appears together with its
Unicode code point rendering (`getCodePoint`), while a message not matching
the token pattern (no leading literal, or no matchable token after it) passes
through unchanged. -/
theorem addCodePointToUnexpectedToken_rewrites (c : Char)
    (hl : isLineTerm c = false) :
    (c ≠ quoteChar → ∀ r : String,
      addCodePointToUnexpectedToken
          ("Unexpected token " ++ String.singleton c ++ r) =
        "Unexpected token " ++ ("\"" ++ String.singleton c ++ "\"(" ++
          getCodePoint (String.singleton c) ++ ")") ++ r)
    ∧ (∀ r : String,
      addCodePointToUnexpectedToken
          ("Unexpected token " ++ String.singleton quoteChar ++
            String.singleton c ++ String.singleton quoteChar ++ r) =
        "Unexpected token " ++ ("\"" ++ String.singleton c ++ "\"(" ++
          getCodePoint (String.singleton c) ++ ")") ++ r)
    ∧ (∀ m : String, stripLit uTokenLit m.toList = none →
        addCodePointToUnexpectedToken m = m)
    ∧ (∀ s : List Char, matchUnexpectedToken s = none →
        addCodePointToUnexpectedToken (String.mk (uTokenLit ++ s)) =
          String.mk (uTokenLit ++ s)) := by
  refine ⟨?_, ?_, ?_, ?_⟩
  · intro hq r
    have hlist : ("Unexpected token " ++ String.singleton c ++ r).toList =
        uTokenLit ++ (c :: r.toList) := by
      show ("Unexpected token ".data ++ [c]) ++ r.data =
        "Unexpected token ".data ++ (c :: r.data)
      simp
    have hm : matchUnexpectedToken (c :: r.toList) = some (c, r.toList) := by
      unfold matchUnexpectedToken
      simp [hq, hl]
    unfold addCodePointToUnexpectedToken
    rw [hlist]
    simp only [stripLit_self_append, hm]
    rfl
  · intro r
    have hlist : ("Unexpected token " ++ String.singleton quoteChar ++
        String.singleton c ++ String.singleton quoteChar ++ r).toList =
        uTokenLit ++ (quoteChar :: c :: quoteChar :: r.toList) := by
      show ((("Unexpected token ".data ++ [quoteChar]) ++ [c]) ++ [quoteChar])
          ++ r.data =
        "Unexpected token ".data ++ (quoteChar :: c :: quoteChar :: r.data)
      simp
    have hm : matchUnexpectedToken (quoteChar :: c :: quoteChar :: r.toList) =
        some (c, r.toList) := by
      unfold matchUnexpectedToken
      simp [hl]
    unfold addCodePointToUnexpectedToken
    rw [hlist]
    simp only [stripLit_self_append, hm]
    rfl
  · intro m hm
    unfold addCodePointToUnexpectedToken
    rw [hm]
  · intro s hms
    unfold addCodePointToUnexpectedToken
    have h1 : (String.mk (uTokenLit ++ s)).toList = uTokenLit ++ s := rfl
    rw [h1]
    simp only [stripLit_self_append, hms]

/-- Witness for C6: the unquoted token in `Unexpected token x in JSON at
position 5` and the single-quoted token in `Unexpected token 'x' blah` both
gain the code point of `x`, and the unmatched message `Oops` is returned
unchanged. -/
theorem addCodePointToUnexpectedToken_rewrites_witness :
    addCodePointToUnexpectedToken "Unexpected token x in JSON at position 5" =
      "Unexpected token \"x\"(\\u\x7b78\x7d) in JSON at position 5"
    ∧ addCodePointToUnexpectedToken ("Unexpected token " ++
        String.singleton quoteChar ++ String.singleton 'x' ++
        String.singleton quoteChar ++ " blah") =
        "Unexpected token \"x\"(\\u\x7b78\x7d) blah"
    ∧ addCodePointToUnexpectedToken "Oops" = "Oops" := by
  refine ⟨?_, ?_, ?_⟩
  · have h := (addCodePointToUnexpectedToken_rewrites 'x' (by decide)).1
      (by decide) " in JSON at position 5"
    have e1 : "Unexpected token " ++ String.singleton 'x' ++
        " in JSON at position 5" =
        "Unexpected token x in JSON at position 5" := by decide
    rw [e1] at h
    rw [h]
    decide
  · have h := (addCodePointToUnexpectedToken_rewrites 'x' (by decide)).2.1
      " blah"
    rw [h]
    decide
  · exact (addCodePointToUnexpectedToken_rewrites 'x' (by decide)).2.2.1
      "Oops" (by decide)

/-- C10: a message consisting of `Unexpected token `, a single character —
single-quoted or unquoted — and an arbitrary tail is rewritten with any
original single quotes stripped: the token reappears wrapped in double quotes,
immediately followed, in parentheses, by `\u` and the lowercase unpadded
hexadecimal (`Nat.toDigits 16`) of the character's code point in braces; and
the rewrite fires only at the very start of the message — every message that
is not the literal `Unexpected token ` followed by something is returned
unchanged. -/
theorem addCodePointToUnexpectedToken_rendering (c : Char)
    (hl : isLineTerm c = false) :
    (∀ r : String,
      addCodePointToUnexpectedToken ("Unexpected token " ++
          String.singleton quoteChar ++ String.singleton c ++
          String.singleton quoteChar ++ r) =
        "Unexpected token " ++ ("\"" ++ String.singleton c ++ "\"(" ++
          ("\\u\x7b" ++ String.mk (Nat.toDigits 16 c.toNat) ++ "\x7d") ++ ")")
          ++ r)
    ∧ (c ≠ quoteChar → ∀ r : String,
      addCodePointToUnexpectedToken
          ("Unexpected token " ++ String.singleton c ++ r) =
        "Unexpected token " ++ ("\"" ++ String.singleton c ++ "\"(" ++
          ("\\u\x7b" ++ String.mk (Nat.toDigits 16 c.toNat) ++ "\x7d") ++ ")")
          ++ r)
    ∧ (∀ m : String, (∀ s : String, m ≠ "Unexpected token " ++ s) →
        addCodePointToUnexpectedToken m = m) := by
  refine ⟨?_, ?_, ?_⟩
  · intro r
    have hlist : ("Unexpected token " ++ String.singleton quoteChar ++
        String.singleton c ++ String.singleton quoteChar ++ r).toList =
        uTokenLit ++ (quoteChar :: c :: quoteChar :: r.toList) := by
      show ((("Unexpected token ".data ++ [quoteChar]) ++ [c]) ++ [quoteChar])
          ++ r.data =
        "Unexpected token ".data ++ (quoteChar :: c :: quoteChar :: r.data)
      simp
    have hm : matchUnexpectedToken (quoteChar :: c :: quoteChar :: r.toList) =
        some (c, r.toList) := by
      unfold matchUnexpectedToken
      simp [hl]
    unfold addCodePointToUnexpectedToken
    rw [hlist]
    simp only [stripLit_self_append, hm]
    rfl
  · intro hq r
    have hlist : ("Unexpected token " ++ String.singleton c ++ r).toList =
        uTokenLit ++ (c :: r.toList) := by
      show ("Unexpected token ".data ++ [c]) ++ r.data =
        "Unexpected token ".data ++ (c :: r.data)
      simp
    have hm : matchUnexpectedToken (c :: r.toList) = some (c, r.toList) := by
      unfold matchUnexpectedToken
      simp [hq, hl]
    unfold addCodePointToUnexpectedToken
    rw [hlist]
    simp only [stripLit_self_append, hm]
    rfl
  · intro m hm
    have hnone : stripLit uTokenLit m.toList = none := by
      cases hsl : stripLit uTokenLit m.toList with
      | none => rfl
      | some r =>
        exfalso
        apply hm (String.mk r)
        apply String.ext
        exact stripLit_some_decomp uTokenLit m.toList r hsl
    unfold addCodePointToUnexpectedToken
    rw [hnone]

/-- Witness for C10: the quoted token in `Unexpected token 'x' is not valid
JSON` and the unquoted token in `Unexpected token y tail` are both rendered
with double quotes and their hexadecimal code points, while `U Unexpected
token x`, where the token shape starts one character too late, is returned
unchanged. -/
theorem addCodePointToUnexpectedToken_rendering_witness :
    addCodePointToUnexpectedToken ("Unexpected token " ++
        String.singleton quoteChar ++ String.singleton 'x' ++
        String.singleton quoteChar ++ " is not valid JSON") =
      "Unexpected token \"x\"(\\u\x7b78\x7d) is not valid JSON"
    ∧ addCodePointToUnexpectedToken "Unexpected token y tail" =
        "Unexpected token \"y\"(\\u\x7b79\x7d) tail"
    ∧ addCodePointToUnexpectedToken "U Unexpected token x" =
        "U Unexpected token x" := by
  refine ⟨?_, ?_, ?_⟩
  · have h := (addCodePointToUnexpectedToken_rendering 'x' (by decide)).1
      " is not valid JSON"
    rw [h]
    decide
  · have h := (addCodePointToUnexpectedToken_rendering 'y' (by decide)).2.1
      (by decide) " tail"
    have e1 : "Unexpected token " ++ String.singleton 'y' ++ " tail" =
        "Unexpected token y tail" := by decide
    rw [e1] at h
    rw [h]
    decide
  · refine (addCodePointToUnexpectedToken_rendering 'x' (by decide)).2.2
      "U Unexpected token x" ?_
    intro s heq
    have h2 : "U Unexpected token x".toList =
        "Unexpected token ".toList ++ s.toList := by
      rw [heq]
      rfl
    have h3 := congrArg (List.take "Unexpected token ".toList.length) h2
    rw [List.take_left] at h3
    exact absurd h3 (by decide)

end ParseJson
